import Mathlib

/-!
Verification of the CVT timing core of the `overdrive` repository
(`cvt-utils/src/lib.rs`).

The Rust code computes over `f64`; the embedding models that arithmetic
exactly over `ℚ`, with `fl` for `f64::floor`, `rnd` for `f64::round`
(half away from zero) and `toU32` for the saturating `as u32` cast.
`u32` quantities are `ℕ` values; the one `u32 + u32` addition in the
source is modelled with an explicit `% 2 ^ 32` (release-profile
wrapping semantics).
-/

namespace Overdrive

/-- Floor of a rational, as a rational: models `f64::floor`. -/
def fl (x : ℚ) : ℚ := (⌊x⌋ : ℚ)

/-- Rounding half away from zero: models `f64::round`. -/
def rnd (x : ℚ) : ℚ := if x < 0 then -(fl (-x + 1 / 2)) else fl (x + 1 / 2)

/-- Models the Rust `as u32` cast from `f64`: truncation toward zero,
saturating to `[0, 2 ^ 32 - 1]`. -/
def toU32 (x : ℚ) : ℕ := if x ≤ 0 then 0 else min ⌊x⌋.toNat (2 ^ 32 - 1)

/-- Monitor blanking mode (`BlankingMode` in the source). -/
inductive BlankingMode
  | Normal
  | Reduced
  | ReducedV2
deriving DecidableEq

/-- Aspect-ratio classification (`AspectRatio` in the source). -/
inductive AspectRatio
  | Aspect4by3
  | Aspect16by9
  | Aspect16by10
  | Aspect5by4
  | Aspect15by9
  | Aspect43by18
  | Aspect64by27
  | Aspect12by5
  | AspectUnknown
deriving DecidableEq

/-- `get_aspect_ratio` from the source, verbatim over `ℚ`. -/
def get_aspect_ratio (interlaced : Bool)
    (v_lines_rnd h_pixels_rnd cell_gran_rnd : ℚ) : AspectRatio :=
  let ver_pixels := if interlaced then 2 * v_lines_rnd else v_lines_rnd
  let hor_pixels_4_3 := cell_gran_rnd * fl (ver_pixels * 4 / 3) / cell_gran_rnd
  let hor_pixels_16_9 := cell_gran_rnd * fl (ver_pixels * 16 / 9) / cell_gran_rnd
  let hor_pixels_16_10 := cell_gran_rnd * fl (ver_pixels * 16 / 10) / cell_gran_rnd
  let hor_pixels_5_4 := cell_gran_rnd * fl (ver_pixels * 5 / 4) / cell_gran_rnd
  let hor_pixels_15_9 := cell_gran_rnd * fl (ver_pixels * 15 / 9) / cell_gran_rnd
  let hor_pixels_43_18 := cell_gran_rnd * fl (ver_pixels * 43 / 18) / cell_gran_rnd
  let hor_pixels_64_27 := cell_gran_rnd * fl (ver_pixels * 64 / 27) / cell_gran_rnd
  let hor_pixels_12_5 := cell_gran_rnd * fl (ver_pixels * 12 / 5) / cell_gran_rnd
  if hor_pixels_4_3 = h_pixels_rnd then .Aspect4by3
  else if hor_pixels_16_9 = h_pixels_rnd then .Aspect16by9
  else if hor_pixels_16_10 = h_pixels_rnd then .Aspect16by10
  else if hor_pixels_5_4 = h_pixels_rnd then .Aspect5by4
  else if hor_pixels_15_9 = h_pixels_rnd then .Aspect15by9
  else if hor_pixels_43_18 = h_pixels_rnd then .Aspect43by18
  else if hor_pixels_64_27 = h_pixels_rnd then .Aspect64by27
  else if hor_pixels_12_5 = h_pixels_rnd then .Aspect12by5
  else .AspectUnknown

/-- The result entity (`CvtTimings` struct in the source). `u32` fields
are `ℕ`, `f64` fields are `ℚ`. -/
structure CvtTimings where
  pixel_clock : ℚ
  h_total : ℕ
  h_active : ℕ
  h_blank : ℕ
  h_front_porch : ℕ
  h_sync : ℕ
  h_back_porch : ℕ
  h_sync_polarity : Bool
  h_freq : ℚ
  h_period : ℚ
  v_total : ℕ
  v_active : ℕ
  v_blank : ℕ
  v_front_porch : ℕ
  v_sync : ℕ
  v_back_porch : ℕ
  v_sync_polarity : Bool
  v_freq : ℚ
  v_period : ℚ
  interlaced : Bool

/-- Mode-dependent clock step (MHz), from the `match blanking_mode` block. -/
def clock_step : BlankingMode → ℚ
  | .Normal => 0.25
  | .Reduced => 0.25
  | .ReducedV2 => 0.001

/-- Mode-dependent reduced-blanking horizontal blank (pixels). -/
def rb_h_blank : BlankingMode → ℕ
  | .Normal => 160
  | .Reduced => 160
  | .ReducedV2 => 80

/-- Mode-dependent reduced-blanking vertical front porch (lines). -/
def rb_v_fporch : BlankingMode → ℕ
  | .Normal => 3
  | .Reduced => 3
  | .ReducedV2 => 1

/-- Mode-dependent refresh multiplier (1.0 in every mode). -/
def refresh_multiplier : BlankingMode → ℚ
  | .Normal => 1
  | .Reduced => 1
  | .ReducedV2 => 1

/-- Horizontal sync polarity per mode. -/
def h_pol : BlankingMode → Bool
  | .Normal => false
  | .Reduced => true
  | .ReducedV2 => true

/-- Vertical sync polarity per mode. -/
def v_pol : BlankingMode → Bool
  | .Normal => true
  | .Reduced => false
  | .ReducedV2 => false

/-- `cell_gran_rnd = cell_gran.floor()` with `cell_gran = 8.0`. -/
def cell_gran_rnd : ℚ := fl 8

/-- Required field rate: doubled when interlaced. -/
def v_field_rate_rqd (r : ℚ) (il : Bool) : ℚ := if il then r * 2 else r

/-- Horizontal pixels rounded down to the cell granularity. -/
def h_pixels_rnd (hp : ℕ) : ℚ := fl ((hp : ℚ) / cell_gran_rnd) * cell_gran_rnd

/-- Left margin (1.8 % of the rounded width, cell aligned), 0 without margins. -/
def left_margin (m : Bool) (hp : ℕ) : ℚ :=
  if m then fl ((h_pixels_rnd hp * 1.8 / 100) / cell_gran_rnd) * cell_gran_rnd else 0

/-- `total_active_pixels = (h_pixels_rnd + left_margin + right_margin).floor() as u32`. -/
def total_active_pixels (m : Bool) (hp : ℕ) : ℕ :=
  toU32 (fl (h_pixels_rnd hp + left_margin m hp + left_margin m hp))

/-- Vertical lines rounded (halved first when interlaced). -/
def v_lines_rnd (il : Bool) (vp : ℕ) : ℚ :=
  if il then fl ((vp : ℚ) / 2) else fl (vp : ℚ)

/-- Top margin (1.8 % of the rounded line count), 0 without margins. -/
def top_margin (m il : Bool) (vp : ℕ) : ℚ :=
  if m then fl (v_lines_rnd il vp * 1.8 / 100) else 0

/-- The `interlace` correction term: 0.5 when interlaced, else 0. -/
def interlaceQ (il : Bool) : ℚ := if il then 0.5 else 0

/-- Vertical sync width: fixed 8 for ReducedV2, else chosen from the
aspect-ratio classification. -/
def v_sync_rnd (bm : BlankingMode) (il : Bool) (vp hp : ℕ) : ℚ :=
  if bm = .ReducedV2 then 8
  else
    match get_aspect_ratio il (v_lines_rnd il vp) (h_pixels_rnd hp) cell_gran_rnd with
    | .Aspect4by3 => 4
    | .Aspect16by9 => 5
    | .Aspect16by10 => 6
    | .Aspect5by4 => 7
    | .Aspect15by9 => 7
    | _ => 10

/-- Estimated horizontal period (µs): the Normal-mode formula uses the
550 µs minimum vsync+back-porch budget, the reduced modes the 460 µs
minimum vertical blank. -/
def h_period_est (hp vp : ℕ) (r : ℚ) (bm : BlankingMode) (m il : Bool) : ℚ :=
  if bm = .Normal then
    ((1 / v_field_rate_rqd r il) - 550 / 1000000) /
      (v_lines_rnd il vp + (2 * top_margin m il vp) + 3 + interlaceQ il) * 1000000
  else
    ((1000000 / v_field_rate_rqd r il) - 460) /
      (v_lines_rnd il vp + top_margin m il vp + top_margin m il vp)

/-- Normal-mode vertical sync + back porch line count, clamped from below. -/
def v_sync_bp (hp vp : ℕ) (r : ℚ) (bm : BlankingMode) (m il : Bool) : ℚ :=
  let raw := fl (550 / h_period_est hp vp r bm m il) + 1
  if raw < v_sync_rnd bm il vp hp + 6 then v_sync_rnd bm il vp hp + 6 else raw

/-- Normal-mode ideal blanking duty cycle: `C' - M' * h_period_est / 1000`. -/
def ideal_duty_cycle (hp vp : ℕ) (r : ℚ) (bm : BlankingMode) (m il : Bool) : ℚ :=
  30 - 300 * h_period_est hp vp r bm m il / 1000

/-- Horizontal blanking (pixels): computed from the duty cycle in Normal
mode (no floor in the 20 % floor branch, exactly as in the source),
fixed constant in the reduced modes. -/
def h_blankQ (hp vp : ℕ) (r : ℚ) (bm : BlankingMode) (m il : Bool) : ℚ :=
  if bm = .Normal then
    if ideal_duty_cycle hp vp r bm m il < 20 then
      (total_active_pixels m hp * 20 / (100 - 20) / (2 * cell_gran_rnd)) *
        (2 * cell_gran_rnd)
    else
      fl (total_active_pixels m hp * ideal_duty_cycle hp vp r bm m il /
          (100 - ideal_duty_cycle hp vp r bm m il) / (2 * cell_gran_rnd)) *
        (2 * cell_gran_rnd)
  else (rb_h_blank bm : ℚ)

/-- Reduced-mode estimated vertical blanking interval (lines). -/
def vbi_lines (hp vp : ℕ) (r : ℚ) (bm : BlankingMode) (m il : Bool) : ℚ :=
  460 / h_period_est hp vp r bm m il + 1

/-- Reduced-mode minimum vertical blanking interval. -/
def rb_min_vbi (bm : BlankingMode) (il : Bool) (vp hp : ℕ) : ℚ :=
  (rb_v_fporch bm : ℚ) + v_sync_rnd bm il vp hp + 6

/-- Reduced-mode actual vertical blanking interval: the larger of the
estimate and the minimum. -/
def act_vbi_lines (hp vp : ℕ) (r : ℚ) (bm : BlankingMode) (m il : Bool) : ℚ :=
  if vbi_lines hp vp r bm m il < rb_min_vbi bm il vp hp then rb_min_vbi bm il vp hp
  else vbi_lines hp vp r bm m il

/-- Total vertical lines per frame. -/
def total_v_linesQ (hp vp : ℕ) (r : ℚ) (bm : BlankingMode) (m il : Bool) : ℚ :=
  if bm = .Normal then
    v_lines_rnd il vp + top_margin m il vp + top_margin m il vp +
      v_sync_bp hp vp r bm m il + interlaceQ il + 3
  else
    act_vbi_lines hp vp r bm m il + v_lines_rnd il vp + top_margin m il vp +
      top_margin m il vp + interlaceQ il

/-- Total pixels per line.  The reduced branch performs the addition on
`u32` (`rb_h_blank + total_active_pixels`), hence the `% 2 ^ 32`. -/
def total_pixelsQ (hp vp : ℕ) (r : ℚ) (bm : BlankingMode) (m il : Bool) : ℚ :=
  if bm = .Normal then (total_active_pixels m hp : ℚ) + h_blankQ hp vp r bm m il
  else (((rb_h_blank bm + total_active_pixels m hp) % 2 ^ 32 : ℕ) : ℚ)

/-- Horizontal sync width: 8 % of the total pixels (cell aligned) in
Normal mode, fixed 32 in the reduced modes. -/
def h_syncQ (hp vp : ℕ) (r : ℚ) (bm : BlankingMode) (m il : Bool) : ℚ :=
  if bm = .Normal then
    fl (0.08 * total_pixelsQ hp vp r bm m il / cell_gran_rnd) * cell_gran_rnd
  else 32

/-- Horizontal back porch: half the blank in Normal mode, fixed 40 / 80
in the reduced modes. -/
def h_back_porchQ (hp vp : ℕ) (r : ℚ) (bm : BlankingMode) (m il : Bool) : ℚ :=
  if bm = .Normal then h_blankQ hp vp r bm m il / 2
  else if bm = .ReducedV2 then 40 else 80

/-- Horizontal front porch: the remainder of the blank in all modes. -/
def h_front_porchQ (hp vp : ℕ) (r : ℚ) (bm : BlankingMode) (m il : Bool) : ℚ :=
  h_blankQ hp vp r bm m il - h_syncQ hp vp r bm m il - h_back_porchQ hp vp r bm m il

/-- Vertical blanking lines. -/
def v_blankQ (hp vp : ℕ) (r : ℚ) (bm : BlankingMode) (m il : Bool) : ℚ :=
  if bm = .Normal then v_sync_bp hp vp r bm m il + 3
  else act_vbi_lines hp vp r bm m il

/-- Vertical front porch. -/
def v_front_porchQ (hp vp : ℕ) (r : ℚ) (bm : BlankingMode) (m il : Bool) : ℚ :=
  if bm = .Normal then 3
  else if bm = .ReducedV2 then
    act_vbi_lines hp vp r bm m il - v_sync_rnd bm il vp hp - 6
  else 3

/-- Vertical back porch. -/
def v_back_porchQ (hp vp : ℕ) (r : ℚ) (bm : BlankingMode) (m il : Bool) : ℚ :=
  if bm = .Normal then v_sync_bp hp vp r bm m il - v_sync_rnd bm il vp hp
  else if bm = .ReducedV2 then 6
  else act_vbi_lines hp vp r bm m il - 3 - v_sync_rnd bm il vp hp

/-- Actual pixel frequency (MHz): the raw estimate rounded down to a
multiple of the mode clock step. -/
def act_pix_freq (hp vp : ℕ) (r : ℚ) (bm : BlankingMode) (m il : Bool) : ℚ :=
  if bm = .Normal then
    clock_step bm *
      fl (total_pixelsQ hp vp r bm m il / h_period_est hp vp r bm m il / clock_step bm)
  else
    clock_step bm *
      fl ((v_field_rate_rqd r il * total_v_linesQ hp vp r bm m il *
            total_pixelsQ hp vp r bm m il / 1000000 * refresh_multiplier bm) /
          clock_step bm)

/-- Pixel clock in Hz: `act_pix_freq * 1000000`. -/
def pclock (hp vp : ℕ) (r : ℚ) (bm : BlankingMode) (m il : Bool) : ℚ :=
  act_pix_freq hp vp r bm m il * 1000000

/-- Raw (unrounded) horizontal scan frequency, `pclock / total_pixels`. -/
def h_freqQ (hp vp : ℕ) (r : ℚ) (bm : BlankingMode) (m il : Bool) : ℚ :=
  pclock hp vp r bm m il / total_pixelsQ hp vp r bm m il

/-- Raw (unrounded) vertical scan frequency,
`pclock / (total_v_lines * total_pixels)`. -/
def v_freqQ (hp vp : ℕ) (r : ℚ) (bm : BlankingMode) (m il : Bool) : ℚ :=
  pclock hp vp r bm m il /
    (total_v_linesQ hp vp r bm m il * total_pixelsQ hp vp r bm m il)

/-- `CvtTimings::generate` from the source: assembles the result struct. -/
def CvtTimings.generate (hp vp : ℕ) (r : ℚ) (bm : BlankingMode) (m il : Bool) :
    CvtTimings where
  pixel_clock := pclock hp vp r bm m il
  h_total := toU32 (total_pixelsQ hp vp r bm m il)
  h_active := total_active_pixels m hp
  h_blank := toU32 (h_blankQ hp vp r bm m il)
  h_front_porch := toU32 (h_front_porchQ hp vp r bm m il)
  h_sync := toU32 (h_syncQ hp vp r bm m il)
  h_back_porch := toU32 (h_back_porchQ hp vp r bm m il)
  h_sync_polarity := h_pol bm
  h_freq := rnd (h_freqQ hp vp r bm m il * 100) / 100
  h_period := 1 / h_freqQ hp vp r bm m il
  v_total := toU32 (total_v_linesQ hp vp r bm m il)
  v_active := toU32 (v_lines_rnd il vp)
  v_blank := toU32 (v_blankQ hp vp r bm m il)
  v_front_porch := toU32 (v_front_porchQ hp vp r bm m il)
  v_sync := toU32 (v_sync_rnd bm il vp hp)
  v_back_porch := toU32 (v_back_porchQ hp vp r bm m il)
  v_sync_polarity := v_pol bm
  v_freq := rnd (v_freqQ hp vp r bm m il * 100) / 100
  v_period := 1 / v_freqQ hp vp r bm m il
  interlaced := il

/-- The fixed, ordered list of candidate aspect ratios from the spec. -/
def ratio_list : List (ℚ × AspectRatio) :=
  [(4 / 3, .Aspect4by3), (16 / 9, .Aspect16by9), (16 / 10, .Aspect16by10),
   (5 / 4, .Aspect5by4), (15 / 9, .Aspect15by9), (43 / 18, .Aspect43by18),
   (64 / 27, .Aspect64by27), (12 / 5, .Aspect12by5)]

/-- First ratio in the list whose candidate `g * fl (ev * ratio) / g`
equals `h` (the candidate formula as the source computes it). -/
def first_match (ev h g : ℚ) : List (ℚ × AspectRatio) → AspectRatio
  | [] => .AspectUnknown
  | p :: rest => if g * fl (ev * p.1) / g = h then p.2 else first_match ev h g rest

/-- First ratio in the list whose candidate `g * fl (ev * ratio / g) / g`
equals `h` (the candidate formula exactly as claim C3 words it, with the
granularity divided inside the floor). -/
def first_match_claimed (ev h g : ℚ) : List (ℚ × AspectRatio) → AspectRatio
  | [] => .AspectUnknown
  | p :: rest =>
    if g * fl (ev * p.1 / g) / g = h then p.2 else first_match_claimed ev h g rest

/-- Classifier as the spec describes it, amended so that the candidate is
`g * floor(ev * ratio) / g` as in the source. -/
def classify_spec (il : Bool) (v h g : ℚ) : AspectRatio :=
  first_match (if il then 2 * v else v) h g ratio_list

/-- Classifier exactly as claim C3 words it: candidate
`g * floor(ev * ratio / g) / g`. -/
def classify_claimed (il : Bool) (v h g : ℚ) : AspectRatio :=
  first_match_claimed (if il then 2 * v else v) h g ratio_list

/-- The raw pixel-frequency estimate (MHz) that each branch of the source
feeds into the clock-step rounding. -/
def raw_freq_est (hp vp : ℕ) (r : ℚ) (bm : BlankingMode) (m il : Bool) : ℚ :=
  if bm = .Normal then
    total_pixelsQ hp vp r bm m il / h_period_est hp vp r bm m il
  else
    v_field_rate_rqd r il * total_v_linesQ hp vp r bm m il *
      total_pixelsQ hp vp r bm m il / 1000000 * refresh_multiplier bm

/-- The pieces of the modeline string produced by
`CvtTimings::generate_modeline`, in output order.  Numeric pieces are
kept as numbers (their decimal rendering is not modelled); flags are the
literal string tokens the source emits.  The `u32` additions of the
source are modelled with wrapping (`% 2 ^ 32`). -/
structure Modeline where
  name_h : ℕ
  name_v : ℕ
  name_refresh : ℚ
  name_suffix : String
  clock_mhz : ℚ
  h_disp : ℕ
  h_sync_start : ℕ
  h_sync_end : ℕ
  h_tot : ℕ
  v_disp : ℕ
  v_sync_start : ℕ
  v_sync_end : ℕ
  v_tot : ℕ
  hsync_flag : String
  vsync_flag : String
  interlace_flag : String

/-- `CvtTimings::generate_modeline` from the source. -/
def generate_modeline (t : CvtTimings) : Modeline where
  name_h := t.h_active
  name_v := t.v_active
  name_refresh := t.v_freq
  name_suffix := if t.interlaced then "i" else ""
  clock_mhz := rnd (t.pixel_clock / 1000) / 1000
  h_disp := t.h_active
  h_sync_start := (t.h_active + t.h_front_porch) % 2 ^ 32
  h_sync_end := (t.h_active + t.h_front_porch + t.h_sync) % 2 ^ 32
  h_tot := t.h_total
  v_disp := t.v_active
  v_sync_start := (t.v_active + t.v_front_porch) % 2 ^ 32
  v_sync_end := (t.v_active + t.v_front_porch + t.v_sync) % 2 ^ 32
  v_tot := t.v_total
  hsync_flag := if t.h_sync_polarity then "+HSync" else "-HSync"
  vsync_flag := if t.v_sync_polarity then "+Vsync" else "-VSync"
  interlace_flag := if t.interlaced then "Interlace" else ""

/-- `x` is (the embedding of) a nonnegative machine integer. -/
def qNat (x : ℚ) : Prop := ∃ n : ℕ, x = (n : ℚ)

end Overdrive

namespace Overdrive

theorem qNat_natCast (n : ℕ) : qNat (n : ℚ) := ⟨n, rfl⟩

theorem qNat_zero : qNat 0 := ⟨0, by norm_num⟩

theorem qNat_add {x y : ℚ} (hx : qNat x) (hy : qNat y) : qNat (x + y) := by
  obtain ⟨a, rfl⟩ := hx
  obtain ⟨b, rfl⟩ := hy
  exact ⟨a + b, by push_cast; ring⟩

theorem qNat_mul {x y : ℚ} (hx : qNat x) (hy : qNat y) : qNat (x * y) := by
  obtain ⟨a, rfl⟩ := hx
  obtain ⟨b, rfl⟩ := hy
  exact ⟨a * b, by push_cast; ring⟩

theorem qNat_nonneg {x : ℚ} (hx : qNat x) : 0 ≤ x := by
  obtain ⟨a, rfl⟩ := hx
  positivity

theorem qNat_fl {x : ℚ} (hx : 0 ≤ x) : qNat (fl x) := by
  refine ⟨⌊x⌋.toNat, ?_⟩
  have h0 : (0 : ℤ) ≤ ⌊x⌋ := Int.floor_nonneg.2 hx
  have h1 : (⌊x⌋.toNat : ℤ) = ⌊x⌋ := Int.toNat_of_nonneg h0
  rw [fl]
  exact_mod_cast h1.symm

theorem qNat_floor_int {x : ℚ} (hx : qNat x) : fl x = x := by
  obtain ⟨a, rfl⟩ := hx
  simp [fl]

/-- On a nonnegative value with floor in `u32` range, the saturating cast
is the floor. -/
theorem toU32_eq_floor {x : ℚ} (h0 : 0 ≤ x) (hb : ⌊x⌋ ≤ 2 ^ 32 - 1) :
    (toU32 x : ℤ) = ⌊x⌋ := by
  unfold toU32
  split_ifs with h
  · have hx0 : x = 0 := le_antisymm h h0
    simp [hx0]
  · have hf0 : (0 : ℤ) ≤ ⌊x⌋ := Int.floor_nonneg.2 h0
    have : ⌊x⌋.toNat ≤ 2 ^ 32 - 1 := by omega
    rw [min_eq_left this]
    exact Int.toNat_of_nonneg hf0

/-- On a `u32`-ranged natural number, the cast is the identity. -/
theorem toU32_natCast {n : ℕ} (hb : n ≤ 2 ^ 32 - 1) : toU32 (n : ℚ) = n := by
  have h0 : (0 : ℚ) ≤ (n : ℚ) := by positivity
  have hf : ⌊(n : ℚ)⌋ = (n : ℤ) := Int.floor_natCast n
  have hb' : ⌊(n : ℚ)⌋ ≤ 2 ^ 32 - 1 := by rw [hf]; omega
  have := toU32_eq_floor h0 hb'
  rw [hf] at this
  omega

theorem toU32_qNat {x : ℚ} (hx : qNat x) (hb : x ≤ 2 ^ 32 - 1) :
    ((toU32 x : ℕ) : ℚ) = x := by
  obtain ⟨n, rfl⟩ := hx
  have h2 : ((2 ^ 32 - 1 : ℕ) : ℚ) = 2 ^ 32 - 1 := by norm_num
  rw [← h2] at hb
  have hb' : n ≤ 2 ^ 32 - 1 := by exact_mod_cast hb
  rw [toU32_natCast hb']

/-- Computation rule for `fl` at a value with known floor. -/
theorem fl_eq (x : ℚ) (n : ℤ) (h1 : (n : ℚ) ≤ x) (h2 : x < n + 1) :
    fl x = (n : ℚ) := by
  have : ⌊x⌋ = n := Int.floor_eq_iff.mpr ⟨h1, by exact_mod_cast h2⟩
  rw [fl, this]

@[simp] theorem fl_natCast (n : ℕ) : fl (n : ℚ) = n := by simp [fl]

@[simp] theorem fl_intCast (n : ℤ) : fl (n : ℚ) = n := by simp [fl]

@[simp] theorem fl_ofNat (n : ℕ) [n.AtLeastTwo] :
    fl (no_index (OfNat.ofNat n) : ℚ) = OfNat.ofNat n := by
  rw [fl, Int.floor_ofNat]
  norm_cast

@[simp] theorem fl_zero : fl 0 = 0 := by simp [fl]

@[simp] theorem fl_one : fl 1 = 1 := by simp [fl]

@[simp] theorem rv2_ne_normal : ¬(BlankingMode.ReducedV2 = BlankingMode.Normal) :=
  fun h => BlankingMode.noConfusion h

@[simp] theorem red_ne_normal : ¬(BlankingMode.Reduced = BlankingMode.Normal) :=
  fun h => BlankingMode.noConfusion h

@[simp] theorem red_ne_rv2 : ¬(BlankingMode.Reduced = BlankingMode.ReducedV2) :=
  fun h => BlankingMode.noConfusion h

@[simp] theorem normal_ne_rv2 : ¬(BlankingMode.Normal = BlankingMode.ReducedV2) :=
  fun h => BlankingMode.noConfusion h

/-- Computation rule for the saturating cast at a value equal to an
in-range natural numeral. -/
theorem toU32_eval {n : ℕ} {x : ℚ} (h : x = (n : ℚ)) (hb : n ≤ 2 ^ 32 - 1) :
    toU32 x = n := by
  rw [h]
  exact toU32_natCast hb

@[simp] theorem cell_gran_rnd_eq : cell_gran_rnd = 8 := by
  rw [cell_gran_rnd, fl_ofNat]

end Overdrive

namespace Overdrive

/-- C2 (counterexample): at 1280x1024@60 in ReducedV2 mode the stored
`h_period` is not the reciprocal of the stored 2-decimal-rounded
`h_freq`; the claimed relationship fails on a concrete generated
timing. -/
theorem c2_counterexample :
    (CvtTimings.generate 1280 1024 60 .ReducedV2 false false).h_period ≠
      1 / (CvtTimings.generate 1280 1024 60 .ReducedV2 false false).h_freq := by
  show 1 / h_freqQ 1280 1024 60 .ReducedV2 false false ≠
    1 / (rnd (h_freqQ 1280 1024 60 .ReducedV2 false false * 100) / 100)
  have e1 : h_pixels_rnd 1280 = 1280 := by
    unfold h_pixels_rnd
    norm_num
  have e2 : total_active_pixels false 1280 = 1280 := by
    unfold total_active_pixels left_margin
    rw [e1]
    exact toU32_eval (by norm_num) (by norm_num)
  have e3 : v_lines_rnd false 1024 = 1024 := by
    unfold v_lines_rnd
    norm_num
  have e4 : h_period_est 1280 1024 60 .ReducedV2 false false = 12155 / 768 := by
    unfold h_period_est
    rw [if_neg rv2_ne_normal, e3]
    norm_num [v_field_rate_rqd, top_margin]
  have e5 : act_vbi_lines 1280 1024 60 .ReducedV2 false false = 73087 / 2431 := by
    unfold act_vbi_lines vbi_lines rb_min_vbi
    rw [e4]
    norm_num [v_sync_rnd, rb_v_fporch]
  have e6 : total_v_linesQ 1280 1024 60 .ReducedV2 false false = 2562431 / 2431 := by
    unfold total_v_linesQ
    rw [if_neg rv2_ne_normal, e5, e3]
    norm_num [top_margin, interlaceQ]
  have e7 : total_pixelsQ 1280 1024 60 .ReducedV2 false false = 1360 := by
    unfold total_pixelsQ
    rw [if_neg rv2_ne_normal, show rb_h_blank .ReducedV2 = 80 from rfl, e2]
    norm_num
  have e8 : act_pix_freq 1280 1024 60 .ReducedV2 false false = 86011 / 1000 := by
    unfold act_pix_freq
    rw [if_neg rv2_ne_normal, e6, e7]
    rw [show v_field_rate_rqd 60 false * (2562431 / 2431) * 1360 / 1000000 *
          refresh_multiplier .ReducedV2 / clock_step .ReducedV2 =
        61498344 / 715 by norm_num [v_field_rate_rqd, refresh_multiplier, clock_step]]
    rw [fl_eq (61498344 / 715) 86011 (by norm_num) (by norm_num)]
    norm_num [clock_step]
  have e9 : h_freqQ 1280 1024 60 .ReducedV2 false false = 2150275 / 34 := by
    unfold h_freqQ pclock
    rw [e8, e7]
    norm_num
  have e10 : rnd (h_freqQ 1280 1024 60 .ReducedV2 false false * 100) = 6324338 := by
    rw [e9]
    unfold rnd
    rw [if_neg (by norm_num)]
    rw [show (2150275 : ℚ) / 34 * 100 + 1 / 2 = 215027517 / 34 by norm_num]
    rw [fl_eq (215027517 / 34) 6324338 (by norm_num) (by norm_num)]
    norm_num
  rw [e10, e9]
  norm_num

/-- C2 (amended): the stored periods are the exact reciprocals of the
raw, unrounded scan frequencies (`pclock / total_pixels` and
`pclock / (total_v_lines * total_pixels)`), not of the 2-decimal-rounded
frequencies stored beside them. -/
theorem c2_amended_periods_reciprocal_of_raw (hp vp : ℕ) (r : ℚ)
    (bm : BlankingMode) (m il : Bool) :
    (CvtTimings.generate hp vp r bm m il).h_period =
        1 / h_freqQ hp vp r bm m il ∧
      (CvtTimings.generate hp vp r bm m il).v_period =
        1 / v_freqQ hp vp r bm m il :=
  ⟨rfl, rfl⟩

/-- C4: the pixel clock stored by `generate` is always the mode clock
step times the floor of (raw frequency estimate / clock step) — rounded
down to a clock-step multiple, never up — with step 0.25 MHz in Normal
and Reduced modes and 0.001 MHz in ReducedV2. -/
theorem c4_pixel_clock_clock_step_floor (hp vp : ℕ) (r : ℚ)
    (bm : BlankingMode) (m il : Bool) :
    (CvtTimings.generate hp vp r bm m il).pixel_clock =
        clock_step bm * fl (raw_freq_est hp vp r bm m il / clock_step bm) *
          1000000 ∧
      clock_step .Normal = 0.25 ∧ clock_step .Reduced = 0.25 ∧
      clock_step .ReducedV2 = 0.001 := by
  refine ⟨?_, rfl, rfl, rfl⟩
  show pclock hp vp r bm m il = _
  unfold pclock act_pix_freq raw_freq_est
  by_cases hbm : bm = .Normal
  · rw [if_pos hbm, if_pos hbm]
  · rw [if_neg hbm, if_neg hbm]

/-- C5: in ReducedV2 mode every generated timing has `h_sync = 32` and
`h_back_porch = 40`; in Reduced mode every generated timing has
`h_sync = 32` and `h_back_porch = 80`. -/
theorem c5_reduced_fixed_fields (hp vp : ℕ) (r : ℚ) (m il : Bool) :
    (CvtTimings.generate hp vp r .ReducedV2 m il).h_sync = 32 ∧
      (CvtTimings.generate hp vp r .ReducedV2 m il).h_back_porch = 40 ∧
      (CvtTimings.generate hp vp r .Reduced m il).h_sync = 32 ∧
      (CvtTimings.generate hp vp r .Reduced m il).h_back_porch = 80 := by
  refine ⟨?_, ?_, ?_, ?_⟩
  · show toU32 (h_syncQ hp vp r .ReducedV2 m il) = 32
    exact toU32_eval (by norm_num [h_syncQ]) (by norm_num)
  · show toU32 (h_back_porchQ hp vp r .ReducedV2 m il) = 40
    exact toU32_eval (by norm_num [h_back_porchQ]) (by norm_num)
  · show toU32 (h_syncQ hp vp r .Reduced m il) = 32
    exact toU32_eval (by norm_num [h_syncQ]) (by norm_num)
  · show toU32 (h_back_porchQ hp vp r .Reduced m il) = 80
    exact toU32_eval (by norm_num [h_back_porchQ]) (by norm_num)

/-- C3 (counterexample): at effective vertical count 600 and rounded
width 800 (granularity 8, not interlaced) the source classifier returns
`Aspect4by3`, while the procedure described by the claim — candidate
`g * floor(ev * ratio / g) / g` — matches no ratio and returns
`AspectUnknown`: the claim's candidate formula divides by the
granularity inside the floor, the code does not. -/
theorem c3_counterexample :
    get_aspect_ratio false 600 800 8 ≠ classify_claimed false 600 800 8 := by
  have f2 : fl ((400 : ℚ) / 3) = 133 := by
    rw [fl_eq ((400 : ℚ) / 3) 133 (by norm_num) (by norm_num)]
    norm_num
  have f4 : fl ((375 : ℚ) / 4) = 93 := by
    rw [fl_eq ((375 : ℚ) / 4) 93 (by norm_num) (by norm_num)]
    norm_num
  have f6 : fl ((1075 : ℚ) / 6) = 179 := by
    rw [fl_eq ((1075 : ℚ) / 6) 179 (by norm_num) (by norm_num)]
    norm_num
  have f7 : fl ((1600 : ℚ) / 9) = 177 := by
    rw [fl_eq ((1600 : ℚ) / 9) 177 (by norm_num) (by norm_num)]
    norm_num
  have hg : get_aspect_ratio false 600 800 8 = .Aspect4by3 := by
    unfold get_aspect_ratio
    norm_num
  have hc : classify_claimed false 600 800 8 = .AspectUnknown := by
    unfold classify_claimed ratio_list
    norm_num [first_match_claimed, f2, f4, f6, f7]
  rw [hg, hc]
  exact fun h => AspectRatio.noConfusion h

/-- C3 (amended): the source classifier agrees everywhere with the
spec's ordered-first-match procedure once the candidate is read as
`g * floor(ev * ratio) / g` (the granularity multiplication and division
cancel outside the floor, matching the code): effective vertical count
doubled when interlaced, ratios tried in the fixed order 4/3, 16/9,
16/10, 5/4, 15/9, 43/18, 64/27, 12/5, first exact match wins, else
`AspectUnknown`. -/
theorem c3_amended_classifier_first_match (il : Bool) (v h : ℚ) :
    get_aspect_ratio il v h 8 = classify_spec il v h 8 := by
  unfold get_aspect_ratio classify_spec ratio_list
  simp only [first_match, mul_div_assoc]

/-- C6: the modeline renders the positive vertical-polarity flag as the
token "+Vsync" (lower-case s), not the token "+VSync" stated by the
spec; shown on a generated Normal-mode timing, whose vertical polarity
is positive. -/
theorem c6_vsync_flag_token :
    (generate_modeline (CvtTimings.generate 640 480 60 .Normal false false)).vsync_flag
        = "+Vsync" ∧
      (generate_modeline
          (CvtTimings.generate 640 480 60 .Normal false false)).vsync_flag
        ≠ "+VSync" := by
  constructor
  · rfl
  · show ¬("+Vsync" = "+VSync")
    decide

/-- C9 (counterexample): at base width 320 the 1.8 % margin truncates to
zero whole 8-pixel cells, so `margins = true` does not strictly increase
`h_active` (320 both ways); the universally-quantified strictness in the
claim fails. -/
theorem c9_counterexample :
    ¬((CvtTimings.generate 320 240 60 .Normal false false).h_active <
      (CvtTimings.generate 320 240 60 .Normal true false).h_active) := by
  have e1 : h_pixels_rnd 320 = 320 := by
    unfold h_pixels_rnd
    norm_num
  have e2 : left_margin true 320 = 0 := by
    unfold left_margin
    rw [e1, cell_gran_rnd_eq, if_pos rfl]
    rw [show (320 : ℚ) * 1.8 / 100 / 8 = 18 / 25 by norm_num]
    rw [fl_eq ((18 : ℚ) / 25) 0 (by norm_num) (by norm_num)]
    norm_num
  have h1 : (CvtTimings.generate 320 240 60 .Normal true false).h_active = 320 := by
    show total_active_pixels true 320 = 320
    unfold total_active_pixels
    rw [e1, e2]
    exact toU32_eval (by norm_num) (by norm_num)
  have h2 : (CvtTimings.generate 320 240 60 .Normal false false).h_active = 320 := by
    show total_active_pixels false 320 = 320
    unfold total_active_pixels left_margin
    rw [e1]
    exact toU32_eval (by norm_num) (by norm_num)
  rw [h1, h2]
  omega

/-- C9 (amended): with margins enabled, `h_active` equals the
margin-free `h_active` plus twice the cell-truncated 1.8 % margin
(`left_margin true hp = fl ((h_pixels_rnd hp * 1.8 / 100) / 8) * 8`),
and the increase is strict precisely when that margin is nonzero —
which requires the rounded width to reach about 445 pixels; the sum must
also fit in `u32`. -/
theorem c9_amended_margin_increase (hp vp : ℕ) (r : ℚ) (bm : BlankingMode)
    (il : Bool) (hcap : h_pixels_rnd hp + 2 * left_margin true hp ≤ 2 ^ 32 - 1)
    (hm : 0 < left_margin true hp) :
    ((CvtTimings.generate hp vp r bm true il).h_active : ℚ) =
        ((CvtTimings.generate hp vp r bm false il).h_active : ℚ) +
          2 * left_margin true hp ∧
      (CvtTimings.generate hp vp r bm false il).h_active <
        (CvtTimings.generate hp vp r bm true il).h_active := by
  have hq8 : qNat (8 : ℚ) := ⟨8, by norm_num⟩
  have hrnd : qNat (h_pixels_rnd hp) := by
    unfold h_pixels_rnd
    rw [cell_gran_rnd_eq]
    exact qNat_mul (qNat_fl (by positivity)) hq8
  have hlm : qNat (left_margin true hp) := by
    unfold left_margin
    rw [cell_gran_rnd_eq, if_pos rfl]
    refine qNat_mul (qNat_fl ?_) hq8
    have := qNat_nonneg hrnd
    positivity
  have hrnd0 : 0 ≤ h_pixels_rnd hp := qNat_nonneg hrnd
  have hlm0 : 0 ≤ left_margin true hp := qNat_nonneg hlm
  have hsum : qNat (h_pixels_rnd hp + left_margin true hp + left_margin true hp) :=
    qNat_add (qNat_add hrnd hlm) hlm
  have hat : ((CvtTimings.generate hp vp r bm true il).h_active : ℚ) =
      h_pixels_rnd hp + 2 * left_margin true hp := by
    show ((total_active_pixels true hp : ℕ) : ℚ) = _
    unfold total_active_pixels
    rw [qNat_floor_int hsum]
    rw [toU32_qNat hsum (by linarith)]
    ring
  have haf : ((CvtTimings.generate hp vp r bm false il).h_active : ℚ) =
      h_pixels_rnd hp := by
    show ((total_active_pixels false hp : ℕ) : ℚ) = _
    unfold total_active_pixels left_margin
    rw [if_neg (by simp)]
    have hsum0 : qNat (h_pixels_rnd hp + 0 + 0) := by
      simpa using hrnd
    rw [qNat_floor_int hsum0]
    rw [toU32_qNat hsum0 (by linarith)]
    ring
  refine ⟨by rw [hat, haf], ?_⟩
  have : ((CvtTimings.generate hp vp r bm false il).h_active : ℚ) <
      ((CvtTimings.generate hp vp r bm true il).h_active : ℚ) := by
    rw [hat, haf]
    linarith
  exact_mod_cast this

/-- C9 (witness): at 1280x1024@60 Normal the margin is 16 pixels, the
bound holds, and `h_active` grows from 1280 to 1312. -/
theorem c9_witness :
    (0 : ℚ) < left_margin true 1280 ∧
      h_pixels_rnd 1280 + 2 * left_margin true 1280 ≤ 2 ^ 32 - 1 ∧
      ((CvtTimings.generate 1280 1024 60 .Normal true false).h_active : ℚ) =
        ((CvtTimings.generate 1280 1024 60 .Normal false false).h_active : ℚ) +
          2 * left_margin true 1280 ∧
      (CvtTimings.generate 1280 1024 60 .Normal false false).h_active <
        (CvtTimings.generate 1280 1024 60 .Normal true false).h_active := by
  have e1 : h_pixels_rnd 1280 = 1280 := by
    unfold h_pixels_rnd
    norm_num
  have e2 : left_margin true 1280 = 16 := by
    unfold left_margin
    rw [e1, cell_gran_rnd_eq, if_pos rfl]
    rw [show (1280 : ℚ) * 1.8 / 100 / 8 = 72 / 25 by norm_num]
    rw [fl_eq ((72 : ℚ) / 25) 2 (by norm_num) (by norm_num)]
    norm_num
  have hm : (0 : ℚ) < left_margin true 1280 := by rw [e2]; norm_num
  have hcap : h_pixels_rnd 1280 + 2 * left_margin true 1280 ≤ 2 ^ 32 - 1 := by
    rw [e1, e2]
    norm_num
  obtain ⟨a, b⟩ := c9_amended_margin_increase 1280 1024 60 .Normal false hcap hm
  exact ⟨hm, hcap, a, b⟩

/-- C8: at 648x480 with refresh 10000000/166661 (≈ 60.002 Hz) in Normal
mode the ideal duty cycle is 19.99 < 20, and the 20-percent branch —
which, unlike its sibling, does not floor to the double cell — produces
`h_blank = 162`, `h_back_porch = 81` and `h_front_porch = 17`, none of
which is a multiple of the 8-pixel cell granularity. -/
theorem c8_low_duty_cycle_fields_not_cell_aligned :
    (CvtTimings.generate 648 480 (10000000 / 166661) .Normal false false).h_blank
        = 162 ∧
      (CvtTimings.generate 648 480 (10000000 / 166661) .Normal false
            false).h_back_porch = 81 ∧
      (CvtTimings.generate 648 480 (10000000 / 166661) .Normal false
            false).h_front_porch = 17 ∧
      ¬(8 ∣ (CvtTimings.generate 648 480 (10000000 / 166661) .Normal false
            false).h_back_porch) := by
  have e1 : h_pixels_rnd 648 = 648 := by
    unfold h_pixels_rnd
    norm_num
  have e2 : total_active_pixels false 648 = 648 := by
    unfold total_active_pixels left_margin
    rw [e1]
    exact toU32_eval (by norm_num) (by norm_num)
  have e3 : v_lines_rnd false 480 = 480 := by
    unfold v_lines_rnd
    norm_num
  have e4 : h_period_est 648 480 (10000000 / 166661) .Normal false false =
      1001 / 30 := by
    unfold h_period_est
    rw [if_pos rfl, e3]
    norm_num [v_field_rate_rqd, top_margin, interlaceQ]
  have e5 : ideal_duty_cycle 648 480 (10000000 / 166661) .Normal false false =
      1999 / 100 := by
    unfold ideal_duty_cycle
    rw [e4]
    norm_num
  have e6 : h_blankQ 648 480 (10000000 / 166661) .Normal false false = 162 := by
    unfold h_blankQ
    rw [if_pos rfl, e5, if_pos (by norm_num : (1999 : ℚ) / 100 < 20), e2,
      cell_gran_rnd_eq]
    norm_num
  have e7 : total_pixelsQ 648 480 (10000000 / 166661) .Normal false false = 810 := by
    unfold total_pixelsQ
    rw [if_pos rfl, e2, e6]
    norm_num
  have e8 : h_syncQ 648 480 (10000000 / 166661) .Normal false false = 64 := by
    unfold h_syncQ
    rw [if_pos rfl, e7, cell_gran_rnd_eq]
    rw [show (0.08 : ℚ) * 810 / 8 = 81 / 10 by norm_num]
    rw [fl_eq ((81 : ℚ) / 10) 8 (by norm_num) (by norm_num)]
    norm_num
  have e9 : h_back_porchQ 648 480 (10000000 / 166661) .Normal false false = 81 := by
    unfold h_back_porchQ
    rw [if_pos rfl, e6]
    norm_num
  have e10 : h_front_porchQ 648 480 (10000000 / 166661) .Normal false false = 17 := by
    unfold h_front_porchQ
    rw [e6, e8, e9]
    norm_num
  have f1 : (CvtTimings.generate 648 480 (10000000 / 166661) .Normal false
      false).h_blank = 162 := by
    show toU32 (h_blankQ 648 480 (10000000 / 166661) .Normal false false) = 162
    rw [e6]
    exact toU32_eval (by norm_num) (by norm_num)
  have f2 : (CvtTimings.generate 648 480 (10000000 / 166661) .Normal false
      false).h_back_porch = 81 := by
    show toU32 (h_back_porchQ 648 480 (10000000 / 166661) .Normal false false) = 81
    rw [e9]
    exact toU32_eval (by norm_num) (by norm_num)
  have f3 : (CvtTimings.generate 648 480 (10000000 / 166661) .Normal false
      false).h_front_porch = 17 := by
    show toU32 (h_front_porchQ 648 480 (10000000 / 166661) .Normal false false) = 17
    rw [e10]
    exact toU32_eval (by norm_num) (by norm_num)
  refine ⟨f1, f2, f3, ?_⟩
  rw [f2]
  omega

/-- C1 (counterexample): at 1280x1024@60 in Normal mode with margins the
top/bottom margins (18 lines each) enter `v_total` but neither
`v_active` nor any vertical porch, so `v_total = 1100` while
`v_active + v_front_porch + v_sync + v_back_porch = 1064`. -/
theorem c1_counterexample :
    (CvtTimings.generate 1280 1024 60 .Normal true false).v_total ≠
      (CvtTimings.generate 1280 1024 60 .Normal true false).v_active +
        (CvtTimings.generate 1280 1024 60 .Normal true false).v_front_porch +
        (CvtTimings.generate 1280 1024 60 .Normal true false).v_sync +
        (CvtTimings.generate 1280 1024 60 .Normal true false).v_back_porch := by
  have e1 : h_pixels_rnd 1280 = 1280 := by
    unfold h_pixels_rnd
    norm_num
  have e3 : v_lines_rnd false 1024 = 1024 := by
    unfold v_lines_rnd
    norm_num
  have g1 : fl ((4096 : ℚ) / 3) = 1365 := by
    rw [fl_eq ((4096 : ℚ) / 3) 1365 (by norm_num) (by norm_num)]
    norm_num
  have g2 : fl ((16384 : ℚ) / 9) = 1820 := by
    rw [fl_eq ((16384 : ℚ) / 9) 1820 (by norm_num) (by norm_num)]
    norm_num
  have g3 : fl ((8192 : ℚ) / 5) = 1638 := by
    rw [fl_eq ((8192 : ℚ) / 5) 1638 (by norm_num) (by norm_num)]
    norm_num
  have ha : get_aspect_ratio false 1024 1280 8 = .Aspect5by4 := by
    unfold get_aspect_ratio
    norm_num [g1, g2, g3]
  have hvs : v_sync_rnd .Normal false 1024 1280 = 7 := by
    unfold v_sync_rnd
    rw [if_neg normal_ne_rv2, e3, e1, cell_gran_rnd_eq, ha]
  have etop : top_margin true false 1024 = 18 := by
    unfold top_margin
    rw [e3, if_pos rfl]
    rw [show (1024 : ℚ) * 1.8 / 100 = 2304 / 125 by norm_num]
    rw [fl_eq ((2304 : ℚ) / 125) 18 (by norm_num) (by norm_num)]
    norm_num
  have ehpe : h_period_est 1280 1024 60 .Normal true false = 48350 / 3189 := by
    unfold h_period_est
    rw [if_pos rfl, e3, etop]
    norm_num [v_field_rate_rqd, interlaceQ]
  have evsbp : v_sync_bp 1280 1024 60 .Normal true false = 37 := by
    unfold v_sync_bp
    rw [ehpe, hvs]
    rw [show (550 : ℚ) / (48350 / 3189) = 35079 / 967 by norm_num]
    rw [fl_eq ((35079 : ℚ) / 967) 36 (by norm_num) (by norm_num)]
    norm_num
  have etot : total_v_linesQ 1280 1024 60 .Normal true false = 1100 := by
    unfold total_v_linesQ
    rw [if_pos rfl, e3, etop, evsbp]
    norm_num [interlaceQ]
  have f1 : (CvtTimings.generate 1280 1024 60 .Normal true false).v_total = 1100 := by
    show toU32 (total_v_linesQ 1280 1024 60 .Normal true false) = 1100
    rw [etot]
    exact toU32_eval (by norm_num) (by norm_num)
  have f2 : (CvtTimings.generate 1280 1024 60 .Normal true false).v_active
      = 1024 := by
    show toU32 (v_lines_rnd false 1024) = 1024
    rw [e3]
    exact toU32_eval (by norm_num) (by norm_num)
  have f3 : (CvtTimings.generate 1280 1024 60 .Normal true false).v_front_porch
      = 3 := by
    show toU32 (v_front_porchQ 1280 1024 60 .Normal true false) = 3
    unfold v_front_porchQ
    rw [if_pos rfl]
    exact toU32_eval (by norm_num) (by norm_num)
  have f4 : (CvtTimings.generate 1280 1024 60 .Normal true false).v_sync = 7 := by
    show toU32 (v_sync_rnd .Normal false 1024 1280) = 7
    rw [hvs]
    exact toU32_eval (by norm_num) (by norm_num)
  have f5 : (CvtTimings.generate 1280 1024 60 .Normal true false).v_back_porch
      = 30 := by
    show toU32 (v_back_porchQ 1280 1024 60 .Normal true false) = 30
    unfold v_back_porchQ
    rw [if_pos rfl, evsbp, hvs]
    exact toU32_eval (by norm_num) (by norm_num)
  rw [f1, f2, f3, f4, f5]
  omega

theorem fl_nonneg {x : ℚ} (h : 0 ≤ x) : 0 ≤ fl x := by
  have : (0 : ℤ) ≤ ⌊x⌋ := Int.floor_nonneg.2 h
  rw [fl]
  exact_mod_cast this

theorem fl_mono {x y : ℚ} (h : x ≤ y) : fl x ≤ fl y := by
  have := Int.floor_mono h
  rw [fl, fl]
  exact_mod_cast this

theorem v_lines_rnd_nonneg (il : Bool) (vp : ℕ) : 0 ≤ v_lines_rnd il vp := by
  unfold v_lines_rnd
  split_ifs <;> exact fl_nonneg (by positivity)

theorem top_margin_nonneg (m il : Bool) (vp : ℕ) : 0 ≤ top_margin m il vp := by
  unfold top_margin
  split_ifs with h
  · have h0 := v_lines_rnd_nonneg il vp
    exact fl_nonneg (by
      apply div_nonneg _ (by norm_num)
      exact mul_nonneg h0 (by norm_num))
  · exact le_refl 0

theorem interlaceQ_nonneg (il : Bool) : 0 ≤ interlaceQ il := by
  unfold interlaceQ
  split_ifs <;> norm_num

/-- The vertical sync width is always one of the naturals 4..10. -/
theorem v_sync_rnd_cases (bm : BlankingMode) (il : Bool) (vp hp : ℕ) :
    ∃ n : ℕ, v_sync_rnd bm il vp hp = (n : ℚ) ∧ 4 ≤ n ∧ n ≤ 10 := by
  unfold v_sync_rnd
  by_cases hbm : bm = .ReducedV2
  · rw [if_pos hbm]
    exact ⟨8, by norm_num, by norm_num, by norm_num⟩
  · rw [if_neg hbm]
    rcases get_aspect_ratio il (v_lines_rnd il vp) (h_pixels_rnd hp) cell_gran_rnd
      with _ | _ | _ | _ | _ | _ | _ | _ | _
    exacts [⟨4, by norm_num, by norm_num, by norm_num⟩,
      ⟨5, by norm_num, by norm_num, by norm_num⟩,
      ⟨6, by norm_num, by norm_num, by norm_num⟩,
      ⟨7, by norm_num, by norm_num, by norm_num⟩,
      ⟨7, by norm_num, by norm_num, by norm_num⟩,
      ⟨10, by norm_num, by norm_num, by norm_num⟩,
      ⟨10, by norm_num, by norm_num, by norm_num⟩,
      ⟨10, by norm_num, by norm_num, by norm_num⟩,
      ⟨10, by norm_num, by norm_num, by norm_num⟩]

theorem natCast_le_u32 {n : ℕ} (h : (n : ℚ) ≤ 2 ^ 32 - 1) : n ≤ 2 ^ 32 - 1 := by
  have h2 : ((2 ^ 32 - 1 : ℕ) : ℚ) = 2 ^ 32 - 1 := by norm_num
  rw [← h2] at h
  exact_mod_cast h

theorem toU32_add_half {N : ℕ} (hb : N ≤ 2 ^ 32 - 1) :
    toU32 ((N : ℚ) + 1 / 2) = N := by
  have h12 : ⌊(1 : ℚ) / 2⌋ = 0 := Int.floor_eq_iff.mpr ⟨by norm_num, by norm_num⟩
  have hf : ⌊(N : ℚ) + 1 / 2⌋ = N := by
    rw [add_comm, Int.floor_add_nat, h12]
    omega
  have h0 : (0 : ℚ) ≤ (N : ℚ) + 1 / 2 := by positivity
  have := toU32_eq_floor h0 (by rw [hf]; omega)
  rw [hf] at this
  omega

/-- The total active pixel count is 8·k for a natural k, equal to the
rounded width plus both margins, and small when the capacity hypothesis
holds. -/
theorem tap_decomp (m : Bool) (hp : ℕ)
    (hcap : h_pixels_rnd hp + 2 * left_margin m hp + 160 ≤ 2 ^ 32 - 1) :
    ∃ k : ℕ, total_active_pixels m hp = 8 * k ∧
      h_pixels_rnd hp + left_margin m hp + left_margin m hp = ((8 * k : ℕ) : ℚ) ∧
      8 * k + 160 ≤ 2 ^ 32 - 1 := by
  obtain ⟨a, ha⟩ : ∃ a : ℕ, h_pixels_rnd hp = (a : ℚ) * 8 := by
    unfold h_pixels_rnd
    rw [cell_gran_rnd_eq]
    obtain ⟨a, e⟩ := qNat_fl (show (0 : ℚ) ≤ (hp : ℚ) / 8 by positivity)
    exact ⟨a, by rw [e]⟩
  obtain ⟨b, hb⟩ : ∃ b : ℕ, left_margin m hp = (b : ℚ) * 8 := by
    unfold left_margin
    rcases m with _ | _
    · exact ⟨0, by norm_num⟩
    · rw [cell_gran_rnd_eq, if_pos rfl]
      have h0 : (0 : ℚ) ≤ h_pixels_rnd hp := by rw [ha]; positivity
      obtain ⟨b, e⟩ := qNat_fl (show (0 : ℚ) ≤ h_pixels_rnd hp * 1.8 / 100 / 8 by
        positivity)
      exact ⟨b, by rw [e]⟩
  refine ⟨a + 2 * b, ?_, ?_, ?_⟩
  · unfold total_active_pixels
    rw [ha, hb]
    rw [show (a : ℚ) * 8 + (b : ℚ) * 8 + (b : ℚ) * 8 = ((8 * (a + 2 * b) : ℕ) : ℚ)
      by push_cast; ring]
    rw [fl_natCast]
    exact toU32_natCast (by
      apply natCast_le_u32
      rw [ha, hb] at hcap
      push_cast
      push_cast at hcap
      linarith)
  · rw [ha, hb]
    push_cast
    ring
  · apply natCast_le_u32
    rw [ha, hb] at hcap
    push_cast
    push_cast at hcap
    linarith

/-- Horizontal geometry sum for the reduced blanking modes. -/
theorem h_sum_reduced (hp vp : ℕ) (r : ℚ) (bm : BlankingMode) (m il : Bool)
    (hbm : bm ≠ .Normal)
    (hcap : h_pixels_rnd hp + 2 * left_margin m hp + 160 ≤ 2 ^ 32 - 1) :
    toU32 (total_pixelsQ hp vp r bm m il) =
      total_active_pixels m hp + toU32 (h_front_porchQ hp vp r bm m il) +
        toU32 (h_syncQ hp vp r bm m il) + toU32 (h_back_porchQ hp vp r bm m il) := by
  obtain ⟨k, hk, _, hkb⟩ := tap_decomp m hp hcap
  have hrb : rb_h_blank bm ≤ 160 := by cases bm <;> simp [rb_h_blank]
  have hmod : (rb_h_blank bm + total_active_pixels m hp) % 2 ^ 32 =
      rb_h_blank bm + total_active_pixels m hp := by
    apply Nat.mod_eq_of_lt
    omega
  have htotal : toU32 (total_pixelsQ hp vp r bm m il) =
      rb_h_blank bm + total_active_pixels m hp := by
    unfold total_pixelsQ
    rw [if_neg hbm, hmod]
    exact toU32_natCast (by omega)
  have hsync : toU32 (h_syncQ hp vp r bm m il) = 32 := by
    unfold h_syncQ
    rw [if_neg hbm]
    exact toU32_eval (by norm_num) (by norm_num)
  rcases bm with _ | _ | _
  · exact absurd rfl hbm
  · have hback : toU32 (h_back_porchQ hp vp r .Reduced m il) = 80 := by
      unfold h_back_porchQ
      rw [if_neg red_ne_normal, if_neg red_ne_rv2]
      exact toU32_eval (by norm_num) (by norm_num)
    have hfront : toU32 (h_front_porchQ hp vp r .Reduced m il) = 48 := by
      unfold h_front_porchQ h_blankQ h_syncQ h_back_porchQ
      rw [if_neg red_ne_normal, if_neg red_ne_normal, if_neg red_ne_normal,
        if_neg red_ne_rv2]
      exact toU32_eval (by norm_num [rb_h_blank]) (by norm_num)
    rw [htotal, hsync, hback, hfront]
    simp [rb_h_blank]
    omega
  · have hback : toU32 (h_back_porchQ hp vp r .ReducedV2 m il) = 40 := by
      unfold h_back_porchQ
      rw [if_neg rv2_ne_normal, if_pos rfl]
      exact toU32_eval (by norm_num) (by norm_num)
    have hfront : toU32 (h_front_porchQ hp vp r .ReducedV2 m il) = 8 := by
      unfold h_front_porchQ h_blankQ h_syncQ h_back_porchQ
      rw [if_neg rv2_ne_normal, if_neg rv2_ne_normal, if_neg rv2_ne_normal,
        if_pos rfl]
      exact toU32_eval (by norm_num [rb_h_blank]) (by norm_num)
    rw [htotal, hsync, hback, hfront]
    simp [rb_h_blank]
    omega

theorem fl_le (x : ℚ) : fl x ≤ x := by
  rw [fl]
  exact Int.floor_le x

theorem fl_gt_sub_one (x : ℚ) : x - 1 < fl x := by
  rw [fl]
  exact Int.sub_one_lt_floor x

set_option maxRecDepth 4096 in
/-- Horizontal geometry sum for Normal blanking. -/
theorem h_sum_normal (hp vp : ℕ) (r : ℚ) (m il : Bool)
    (hpe : 0 < h_period_est hp vp r .Normal m il)
    (hcap : h_pixels_rnd hp + 2 * left_margin m hp + 160 ≤ 2 ^ 32 - 1)
    (htp : total_pixelsQ hp vp r .Normal m il ≤ 2 ^ 32 - 1) :
    toU32 (total_pixelsQ hp vp r .Normal m il) =
      total_active_pixels m hp + toU32 (h_front_porchQ hp vp r .Normal m il) +
        toU32 (h_syncQ hp vp r .Normal m il) +
        toU32 (h_back_porchQ hp vp r .Normal m il) := by
  obtain ⟨k, hk, _, _⟩ := tap_decomp m hp hcap
  have hidc30 : ideal_duty_cycle hp vp r .Normal m il < 30 := by
    unfold ideal_duty_cycle
    linarith
  by_cases hd : ideal_duty_cycle hp vp r .Normal m il < 20
  · -- the fixed 20 % duty-cycle branch: h_blank = tap / 4, with no floor
    have hblank : h_blankQ hp vp r .Normal m il = ((2 * k : ℕ) : ℚ) := by
      unfold h_blankQ
      rw [if_pos rfl, if_pos hd, hk, cell_gran_rnd_eq]
      push_cast
      ring
    have htpv : total_pixelsQ hp vp r .Normal m il = ((10 * k : ℕ) : ℚ) := by
      unfold total_pixelsQ
      rw [if_pos rfl, hk, hblank]
      push_cast
      ring
    rw [htpv] at htp
    have hb10 : 10 * k ≤ 2 ^ 32 - 1 := natCast_le_u32 htp
    obtain ⟨s, hs⟩ := qNat_fl (show (0 : ℚ) ≤ (k : ℚ) / 10 by positivity)
    have hsync : h_syncQ hp vp r .Normal m il = ((8 * s : ℕ) : ℚ) := by
      unfold h_syncQ
      rw [if_pos rfl, htpv, cell_gran_rnd_eq]
      rw [show (0.08 : ℚ) * ((10 * k : ℕ) : ℚ) / 8 = (k : ℚ) / 10 by
        push_cast; ring]
      rw [hs]
      push_cast
      ring
    have hs_le : 8 * s ≤ k := by
      have h1 : ((s : ℕ) : ℚ) ≤ (k : ℚ) / 10 := by rw [← hs]; exact fl_le _
      have h2 : ((8 * s : ℕ) : ℚ) ≤ (k : ℚ) := by push_cast; push_cast at h1; linarith
      exact_mod_cast h2
    have hback : h_back_porchQ hp vp r .Normal m il = ((k : ℕ) : ℚ) := by
      unfold h_back_porchQ
      rw [if_pos rfl, hblank]
      push_cast
      ring
    have hfront : h_front_porchQ hp vp r .Normal m il = ((k - 8 * s : ℕ) : ℚ) := by
      unfold h_front_porchQ
      rw [hblank, hsync, hback, Nat.cast_sub hs_le]
      push_cast
      ring
    rw [htpv, toU32_natCast hb10, hk, hfront, toU32_natCast (by omega), hsync,
      toU32_natCast (by omega), hback, toU32_natCast (by omega)]
    omega
  · -- the floored duty-cycle branch
    have h20 : 20 ≤ ideal_duty_cycle hp vp r .Normal m il := not_lt.mp hd
    have h100 : (100 : ℚ) - ideal_duty_cycle hp vp r .Normal m il > 0 := by
      linarith
    have harg0 : (0 : ℚ) ≤ ((8 * k : ℕ) : ℚ) *
        ideal_duty_cycle hp vp r .Normal m il /
        (100 - ideal_duty_cycle hp vp r .Normal m il) / (2 * 8) := by
      apply div_nonneg _ (by norm_num)
      apply div_nonneg _ (le_of_lt h100)
      have : (0 : ℚ) ≤ ((8 * k : ℕ) : ℚ) := by positivity
      nlinarith
    obtain ⟨mn, hmn⟩ := qNat_fl harg0
    have hblank : h_blankQ hp vp r .Normal m il = ((16 * mn : ℕ) : ℚ) := by
      unfold h_blankQ
      rw [if_pos rfl, if_neg hd, hk, cell_gran_rnd_eq, hmn]
      push_cast
      ring
    have htpv : total_pixelsQ hp vp r .Normal m il =
        ((8 * k + 16 * mn : ℕ) : ℚ) := by
      unfold total_pixelsQ
      rw [if_pos rfl, hk, hblank]
      push_cast
      ring
    rw [htpv] at htp
    have hbnd : 8 * k + 16 * mn ≤ 2 ^ 32 - 1 := natCast_le_u32 htp
    obtain ⟨s, hsf⟩ := qNat_fl
      (show (0 : ℚ) ≤ ((8 * k + 16 * mn : ℕ) : ℚ) / 100 by positivity)
    have hsync : h_syncQ hp vp r .Normal m il = ((8 * s : ℕ) : ℚ) := by
      unfold h_syncQ
      rw [if_pos rfl, htpv, cell_gran_rnd_eq]
      rw [show (0.08 : ℚ) * ((8 * k + 16 * mn : ℕ) : ℚ) / 8 =
          ((8 * k + 16 * mn : ℕ) : ℚ) / 100 by push_cast; ring]
      rw [hsf]
      push_cast
      ring
    have hback : h_back_porchQ hp vp r .Normal m il = ((8 * mn : ℕ) : ℚ) := by
      unfold h_back_porchQ
      rw [if_pos rfl, hblank]
      push_cast
      ring
    -- the sync never exceeds half the blank: s ≤ mn
    have hs_le : s ≤ mn := by
      have hfq : (1 : ℚ) / 4 ≤ ideal_duty_cycle hp vp r .Normal m il /
          (100 - ideal_duty_cycle hp vp r .Normal m il) := by
        rw [le_div_iff h100]
        linarith
      have hk0 : (0 : ℚ) ≤ ((8 * k : ℕ) : ℚ) := by positivity
      have hprod : ((8 * k : ℕ) : ℚ) * (1 / 4) ≤ ((8 * k : ℕ) : ℚ) *
          (ideal_duty_cycle hp vp r .Normal m il /
            (100 - ideal_duty_cycle hp vp r .Normal m il)) :=
        mul_le_mul_of_nonneg_left hfq hk0
      have harg_ge : ((8 * k : ℕ) : ℚ) / 64 ≤ ((8 * k : ℕ) : ℚ) *
          ideal_duty_cycle hp vp r .Normal m il /
          (100 - ideal_duty_cycle hp vp r .Normal m il) / (2 * 8) := by
        rw [show ((8 * k : ℕ) : ℚ) * ideal_duty_cycle hp vp r .Normal m il /
            (100 - ideal_duty_cycle hp vp r .Normal m il) / (2 * 8) =
          ((8 * k : ℕ) : ℚ) * (ideal_duty_cycle hp vp r .Normal m il /
            (100 - ideal_duty_cycle hp vp r .Normal m il)) / 16 by ring]
        linarith
    -- floor lower bound for mn
      have hmn_gt : ((8 * k : ℕ) : ℚ) *
          ideal_duty_cycle hp vp r .Normal m il /
          (100 - ideal_duty_cycle hp vp r .Normal m il) / (2 * 8) - 1 <
          (mn : ℚ) := by
        rw [← hmn]
        exact fl_gt_sub_one _
      have hsq : ((s : ℕ) : ℚ) ≤ ((8 * k + 16 * mn : ℕ) : ℚ) / 100 := by
        rw [← hsf]
        exact fl_le _
      have hk00 : (0 : ℚ) ≤ (k : ℚ) := by positivity
      have hlin : ((s : ℕ) : ℚ) < (mn : ℚ) + 1 := by
        push_cast at hsq hmn_gt harg_ge ⊢
        linarith
      have : s < mn + 1 := by exact_mod_cast hlin
      omega
    have hfront : h_front_porchQ hp vp r .Normal m il =
        ((8 * mn - 8 * s : ℕ) : ℚ) := by
      unfold h_front_porchQ
      rw [hblank, hsync, hback, Nat.cast_sub (by omega)]
      push_cast
      ring
    rw [htpv, toU32_natCast hbnd, hk, hfront, toU32_natCast (by omega), hsync,
      toU32_natCast (by omega), hback, toU32_natCast (by omega)]
    omega

/-- Vertical geometry sum for Normal blanking without margins. -/
theorem v_sum_normal (hp vp : ℕ) (r : ℚ) (il : Bool)
    (hpe : 0 < h_period_est hp vp r .Normal false il)
    (htv : total_v_linesQ hp vp r .Normal false il ≤ 2 ^ 32 - 1) :
    toU32 (total_v_linesQ hp vp r .Normal false il) =
      toU32 (v_lines_rnd il vp) +
        toU32 (v_front_porchQ hp vp r .Normal false il) +
        toU32 (v_sync_rnd .Normal il vp hp) +
        toU32 (v_back_porchQ hp vp r .Normal false il) := by
  have hvl : qNat (v_lines_rnd il vp) := by
    unfold v_lines_rnd
    split_ifs
    · exact qNat_fl (by positivity)
    · exact qNat_fl (by positivity)
  obtain ⟨nv, hnv⟩ := hvl
  obtain ⟨ns, hns, hns4, hns10⟩ := v_sync_rnd_cases .Normal il vp hp
  obtain ⟨nb, hnb⟩ := qNat_fl
    (div_nonneg (by norm_num : (0 : ℚ) ≤ 550) (le_of_lt hpe))
  have htm : top_margin false il vp = 0 := by
    unfold top_margin
    simp
  have hsb : ∃ nsb : ℕ, v_sync_bp hp vp r .Normal false il = (nsb : ℚ) ∧
      ns + 6 ≤ nsb := by
    unfold v_sync_bp
    rw [hnb, hns]
    dsimp only
    split_ifs with h
    · exact ⟨ns + 6, by push_cast; ring, le_refl _⟩
    · push_neg at h
      refine ⟨nb + 1, by push_cast; ring, ?_⟩
      exact_mod_cast h
  obtain ⟨nsb, hnsb, hnsb6⟩ := hsb
  have htvv : total_v_linesQ hp vp r .Normal false il =
      ((nv + nsb + 3 : ℕ) : ℚ) + interlaceQ il := by
    unfold total_v_linesQ
    rw [if_pos rfl, hnv, hnsb, htm]
    push_cast
    ring
  have hbound : nv + nsb + 3 ≤ 2 ^ 32 - 1 := by
    rw [htvv] at htv
    have hil := interlaceQ_nonneg il
    exact natCast_le_u32 (by linarith)
  have htotal : toU32 (total_v_linesQ hp vp r .Normal false il) = nv + nsb + 3 := by
    rw [htvv]
    rcases il with _ | _
    · rw [show interlaceQ false = 0 from rfl, add_zero]
      exact toU32_natCast hbound
    · rw [show interlaceQ true = 1 / 2 by norm_num [interlaceQ]]
      exact toU32_add_half hbound
  have hactive : toU32 (v_lines_rnd il vp) = nv := by
    rw [hnv]
    exact toU32_natCast (by omega)
  have hfrontv : toU32 (v_front_porchQ hp vp r .Normal false il) = 3 := by
    unfold v_front_porchQ
    rw [if_pos rfl]
    exact toU32_eval (by norm_num) (by norm_num)
  have hsyncv : toU32 (v_sync_rnd .Normal il vp hp) = ns := by
    rw [hns]
    exact toU32_natCast (by omega)
  have hbackv : toU32 (v_back_porchQ hp vp r .Normal false il) = nsb - ns := by
    unfold v_back_porchQ
    rw [if_pos rfl, hnsb, hns, ← Nat.cast_sub (by omega)]
    exact toU32_natCast (by omega)
  rw [htotal, hactive, hfrontv, hsyncv, hbackv]
  omega

/-- Vertical geometry sum for the reduced blanking modes without margins
or interlacing. -/
theorem v_sum_reduced (hp vp : ℕ) (r : ℚ) (bm : BlankingMode)
    (hbm : bm ≠ .Normal)
    (htv : total_v_linesQ hp vp r bm false false ≤ 2 ^ 32 - 1) :
    toU32 (total_v_linesQ hp vp r bm false false) =
      toU32 (v_lines_rnd false vp) +
        toU32 (v_front_porchQ hp vp r bm false false) +
        toU32 (v_sync_rnd bm false vp hp) +
        toU32 (v_back_porchQ hp vp r bm false false) := by
  have hnv : v_lines_rnd false vp = ((vp : ℕ) : ℚ) := by
    unfold v_lines_rnd
    simp
  obtain ⟨ns, hns, hns4, hns10⟩ := v_sync_rnd_cases bm false vp hp
  have htm : top_margin false false vp = 0 := by
    unfold top_margin
    simp
  have hns0 : (0 : ℚ) ≤ (ns : ℚ) := by positivity
  have hfporch : (0 : ℚ) ≤ (rb_v_fporch bm : ℚ) := by positivity
  have hminvbi : rb_min_vbi bm false vp hp = (rb_v_fporch bm : ℚ) + ns + 6 := by
    unfold rb_min_vbi
    rw [hns]
  have havbi_ge : rb_min_vbi bm false vp hp ≤ act_vbi_lines hp vp r bm false false := by
    unfold act_vbi_lines
    split_ifs with h <;> linarith
  rw [hminvbi] at havbi_ge
  have havbi0 : 0 ≤ act_vbi_lines hp vp r bm false false := by linarith
  have hflr : ⌊act_vbi_lines hp vp r bm false false + (vp : ℚ)⌋ =
      ⌊act_vbi_lines hp vp r bm false false⌋ + vp :=
    Int.floor_add_nat _ vp
  have htvv : total_v_linesQ hp vp r bm false false =
      act_vbi_lines hp vp r bm false false + (vp : ℚ) := by
    unfold total_v_linesQ
    rw [if_neg hbm, hnv, htm]
    norm_num [interlaceQ]
  have hfb : ⌊act_vbi_lines hp vp r bm false false⌋ + vp ≤ 2 ^ 32 - 1 := by
    rw [htvv] at htv
    have h1 := Int.floor_mono (le_trans htv
      (by norm_num : (2 ^ 32 - 1 : ℚ) ≤ ((4294967295 : ℤ) : ℚ)))
    rw [Int.floor_intCast, hflr] at h1
    omega
  have hfa0 : 0 ≤ ⌊act_vbi_lines hp vp r bm false false⌋ :=
    Int.floor_nonneg.2 havbi0
  have htotal : (toU32 (total_v_linesQ hp vp r bm false false) : ℤ) =
      ⌊act_vbi_lines hp vp r bm false false⌋ + vp := by
    rw [htvv, toU32_eq_floor (by positivity) (by rw [hflr]; omega), hflr]
  have hvpb : vp ≤ 2 ^ 32 - 1 := by omega
  have hactive : toU32 (v_lines_rnd false vp) = vp := by
    rw [hnv]
    exact toU32_natCast hvpb
  have hsyncv : toU32 (v_sync_rnd bm false vp hp) = ns := by
    rw [hns]
    exact toU32_natCast (by omega)
  rcases bm with _ | _ | _
  · exact absurd rfl hbm
  · have hfp3 : (rb_v_fporch BlankingMode.Reduced : ℚ) = 3 := by
      norm_num [rb_v_fporch]
    rw [hfp3] at havbi_ge
    have hfrontv : toU32 (v_front_porchQ hp vp r .Reduced false false) = 3 := by
      unfold v_front_porchQ
      rw [if_neg red_ne_normal, if_neg red_ne_rv2]
      exact toU32_eval (by norm_num) (by norm_num)
    have hbsub : act_vbi_lines hp vp r .Reduced false false - 3 - (ns : ℚ) =
        act_vbi_lines hp vp r .Reduced false false - ((3 + ns : ℕ) : ℚ) := by
      push_cast
      ring
    have hbackflr : ⌊act_vbi_lines hp vp r .Reduced false false - ((3 + ns : ℕ) : ℚ)⌋ =
        ⌊act_vbi_lines hp vp r .Reduced false false⌋ - (3 + ns : ℕ) :=
      Int.floor_sub_nat _ _
    have hbackv : (toU32 (v_back_porchQ hp vp r .Reduced false false) : ℤ) =
        ⌊act_vbi_lines hp vp r .Reduced false false⌋ - 3 - ns := by
      unfold v_back_porchQ
      rw [if_neg red_ne_normal, if_neg red_ne_rv2, hns, hbsub,
        toU32_eq_floor (by push_cast; linarith) (by rw [hbackflr]; push_cast; omega),
        hbackflr]
      push_cast
      ring
    rw [hfrontv, hsyncv]
    omega
  · have hfp1 : (rb_v_fporch BlankingMode.ReducedV2 : ℚ) = 1 := by
      norm_num [rb_v_fporch]
    rw [hfp1] at havbi_ge
    have hbackv : toU32 (v_back_porchQ hp vp r .ReducedV2 false false) = 6 := by
      unfold v_back_porchQ
      rw [if_neg rv2_ne_normal, if_pos rfl]
      exact toU32_eval (by norm_num) (by norm_num)
    have hfsub : act_vbi_lines hp vp r .ReducedV2 false false - (ns : ℚ) - 6 =
        act_vbi_lines hp vp r .ReducedV2 false false - ((ns + 6 : ℕ) : ℚ) := by
      push_cast
      ring
    have hfrontflr : ⌊act_vbi_lines hp vp r .ReducedV2 false false -
        ((ns + 6 : ℕ) : ℚ)⌋ =
        ⌊act_vbi_lines hp vp r .ReducedV2 false false⌋ - (ns + 6 : ℕ) :=
      Int.floor_sub_nat _ _
    have hfrontv : (toU32 (v_front_porchQ hp vp r .ReducedV2 false false) : ℤ) =
        ⌊act_vbi_lines hp vp r .ReducedV2 false false⌋ - ns - 6 := by
      unfold v_front_porchQ
      rw [if_neg rv2_ne_normal, if_pos rfl, hns, hfsub,
        toU32_eq_floor (by push_cast; linarith) (by rw [hfrontflr]; push_cast; omega),
        hfrontflr]
      push_cast
      ring
    rw [hbackv, hsyncv]
    omega

/-- C1 (amended): the horizontal identity
`h_total = h_active + h_front_porch + h_sync + h_back_porch` holds in
every blanking mode, with or without margins and interlacing (given a
positive Normal-mode period estimate and `u32`-range totals); the
vertical identity holds when margins are disabled and, in the reduced
modes, interlacing is disabled. With margins the top/bottom margins
enter `v_total` but no vertical field, and in the reduced interlaced
case the fractional vertical blanking interval plus the 0.5 interlace
term can round `v_total` one line past the field sum. -/
theorem c1_amended_geometry_sums (hp vp : ℕ) (r : ℚ) (bm : BlankingMode)
    (m il : Bool)
    (hpe : bm = .Normal → 0 < h_period_est hp vp r bm m il)
    (hcap : h_pixels_rnd hp + 2 * left_margin m hp + 160 ≤ 2 ^ 32 - 1)
    (htp : total_pixelsQ hp vp r bm m il ≤ 2 ^ 32 - 1)
    (htv : total_v_linesQ hp vp r bm m il ≤ 2 ^ 32 - 1) :
    (CvtTimings.generate hp vp r bm m il).h_total =
        (CvtTimings.generate hp vp r bm m il).h_active +
          (CvtTimings.generate hp vp r bm m il).h_front_porch +
          (CvtTimings.generate hp vp r bm m il).h_sync +
          (CvtTimings.generate hp vp r bm m il).h_back_porch ∧
      (m = false → (bm = .Normal ∨ il = false) →
        (CvtTimings.generate hp vp r bm m il).v_total =
          (CvtTimings.generate hp vp r bm m il).v_active +
            (CvtTimings.generate hp vp r bm m il).v_front_porch +
            (CvtTimings.generate hp vp r bm m il).v_sync +
            (CvtTimings.generate hp vp r bm m il).v_back_porch) := by
  constructor
  · show toU32 (total_pixelsQ hp vp r bm m il) = total_active_pixels m hp +
      toU32 (h_front_porchQ hp vp r bm m il) + toU32 (h_syncQ hp vp r bm m il) +
      toU32 (h_back_porchQ hp vp r bm m il)
    by_cases hbm : bm = .Normal
    · subst hbm
      exact h_sum_normal hp vp r m il (hpe rfl) hcap htp
    · exact h_sum_reduced hp vp r bm m il hbm hcap
  · intro hm hcase
    subst hm
    show toU32 (total_v_linesQ hp vp r bm false il) = toU32 (v_lines_rnd il vp) +
      toU32 (v_front_porchQ hp vp r bm false il) + toU32 (v_sync_rnd bm il vp hp) +
      toU32 (v_back_porchQ hp vp r bm false il)
    by_cases hbm : bm = .Normal
    · subst hbm
      exact v_sum_normal hp vp r il (hpe rfl) htv
    · rcases hcase with h | h
      · exact absurd h hbm
      · subst h
        exact v_sum_reduced hp vp r bm hbm htv

/-- C1 (witness): 1280x1024@60 in ReducedV2 mode without margins or
interlacing satisfies the amended hypotheses, and both identities
hold there. -/
theorem c1_witness :
    (BlankingMode.ReducedV2 = BlankingMode.Normal →
        0 < h_period_est 1280 1024 60 .ReducedV2 false false) ∧
      h_pixels_rnd 1280 + 2 * left_margin false 1280 + 160 ≤ 2 ^ 32 - 1 ∧
      total_pixelsQ 1280 1024 60 .ReducedV2 false false ≤ 2 ^ 32 - 1 ∧
      total_v_linesQ 1280 1024 60 .ReducedV2 false false ≤ 2 ^ 32 - 1 ∧
      ((CvtTimings.generate 1280 1024 60 .ReducedV2 false false).h_total =
          (CvtTimings.generate 1280 1024 60 .ReducedV2 false false).h_active +
            (CvtTimings.generate 1280 1024 60 .ReducedV2 false false).h_front_porch +
            (CvtTimings.generate 1280 1024 60 .ReducedV2 false false).h_sync +
            (CvtTimings.generate 1280 1024 60 .ReducedV2 false false).h_back_porch ∧
        (false = false → (BlankingMode.ReducedV2 = BlankingMode.Normal ∨
            false = false) →
          (CvtTimings.generate 1280 1024 60 .ReducedV2 false false).v_total =
            (CvtTimings.generate 1280 1024 60 .ReducedV2 false false).v_active +
              (CvtTimings.generate 1280 1024 60 .ReducedV2 false
                  false).v_front_porch +
              (CvtTimings.generate 1280 1024 60 .ReducedV2 false false).v_sync +
              (CvtTimings.generate 1280 1024 60 .ReducedV2 false
                  false).v_back_porch)) := by
  have e1 : h_pixels_rnd 1280 = 1280 := by
    unfold h_pixels_rnd
    norm_num
  have e2 : total_active_pixels false 1280 = 1280 := by
    unfold total_active_pixels left_margin
    rw [e1]
    exact toU32_eval (by norm_num) (by norm_num)
  have e3 : v_lines_rnd false 1024 = 1024 := by
    unfold v_lines_rnd
    norm_num
  have e4 : h_period_est 1280 1024 60 .ReducedV2 false false = 12155 / 768 := by
    unfold h_period_est
    rw [if_neg rv2_ne_normal, e3]
    norm_num [v_field_rate_rqd, top_margin]
  have e5 : act_vbi_lines 1280 1024 60 .ReducedV2 false false = 73087 / 2431 := by
    unfold act_vbi_lines vbi_lines rb_min_vbi
    rw [e4]
    norm_num [v_sync_rnd, rb_v_fporch]
  have e6 : total_v_linesQ 1280 1024 60 .ReducedV2 false false =
      2562431 / 2431 := by
    unfold total_v_linesQ
    rw [if_neg rv2_ne_normal, e5, e3]
    norm_num [top_margin, interlaceQ]
  have e7 : total_pixelsQ 1280 1024 60 .ReducedV2 false false = 1360 := by
    unfold total_pixelsQ
    rw [if_neg rv2_ne_normal, show rb_h_blank .ReducedV2 = 80 from rfl, e2]
    norm_num
  have hpe : BlankingMode.ReducedV2 = BlankingMode.Normal →
      0 < h_period_est 1280 1024 60 .ReducedV2 false false :=
    fun h => absurd h rv2_ne_normal
  have hcap : h_pixels_rnd 1280 + 2 * left_margin false 1280 + 160 ≤
      2 ^ 32 - 1 := by
    rw [e1]
    norm_num [left_margin]
  have htp : total_pixelsQ 1280 1024 60 .ReducedV2 false false ≤ 2 ^ 32 - 1 := by
    rw [e7]
    norm_num
  have htv : total_v_linesQ 1280 1024 60 .ReducedV2 false false ≤ 2 ^ 32 - 1 := by
    rw [e6]
    norm_num
  exact ⟨hpe, hcap, htp, htv,
    c1_amended_geometry_sums 1280 1024 60 .ReducedV2 false false hpe hcap htp htv⟩

/-- C7 (counterexample): at 648x480 in Normal mode the refresh rates
10000000/166661 (≈ 60.0021 Hz) and 100000000/1664839 (≈ 60.066 Hz)
straddle the duty-cycle-20 branch boundary; the larger refresh produces
the smaller pixel clock (24.0 vs 24.25 MHz), so the pixel clock is not
monotone in the requested refresh rate. -/
theorem c7_counterexample :
    (10000000 : ℚ) / 166661 < 100000000 / 1664839 ∧
      (CvtTimings.generate 648 480 (100000000 / 1664839) .Normal false
            false).pixel_clock <
        (CvtTimings.generate 648 480 (10000000 / 166661) .Normal false
            false).pixel_clock := by
  refine ⟨by norm_num, ?_⟩
  have e1 : h_pixels_rnd 648 = 648 := by
    unfold h_pixels_rnd
    norm_num
  have e2 : total_active_pixels false 648 = 648 := by
    unfold total_active_pixels left_margin
    rw [e1]
    exact toU32_eval (by norm_num) (by norm_num)
  have e3 : v_lines_rnd false 480 = 480 := by
    unfold v_lines_rnd
    norm_num
  have a4 : h_period_est 648 480 (10000000 / 166661) .Normal false false =
      1001 / 30 := by
    unfold h_period_est
    rw [if_pos rfl, e3]
    norm_num [v_field_rate_rqd, top_margin, interlaceQ]
  have a5 : ideal_duty_cycle 648 480 (10000000 / 166661) .Normal false false =
      1999 / 100 := by
    unfold ideal_duty_cycle
    rw [a4]
    norm_num
  have a6 : h_blankQ 648 480 (10000000 / 166661) .Normal false false = 162 := by
    unfold h_blankQ
    rw [if_pos rfl, a5, if_pos (by norm_num : (1999 : ℚ) / 100 < 20), e2,
      cell_gran_rnd_eq]
    norm_num
  have a7 : total_pixelsQ 648 480 (10000000 / 166661) .Normal false false
      = 810 := by
    unfold total_pixelsQ
    rw [if_pos rfl, e2, a6]
    norm_num
  have a8 : act_pix_freq 648 480 (10000000 / 166661) .Normal false false
      = 97 / 4 := by
    unfold act_pix_freq
    rw [if_pos rfl, a7, a4, show clock_step .Normal = 1 / 4 by
      norm_num [clock_step]]
    rw [show (810 : ℚ) / (1001 / 30) / (1 / 4) = 97200 / 1001 by norm_num]
    rw [fl_eq ((97200 : ℚ) / 1001) 97 (by norm_num) (by norm_num)]
    norm_num
  have b4 : h_period_est 648 480 (100000000 / 1664839) .Normal false false =
      3333 / 100 := by
    unfold h_period_est
    rw [if_pos rfl, e3]
    norm_num [v_field_rate_rqd, top_margin, interlaceQ]
  have b5 : ideal_duty_cycle 648 480 (100000000 / 1664839) .Normal false false =
      20001 / 1000 := by
    unfold ideal_duty_cycle
    rw [b4]
    norm_num
  have b6 : h_blankQ 648 480 (100000000 / 1664839) .Normal false false = 160 := by
    unfold h_blankQ
    rw [if_pos rfl, b5, if_neg (by norm_num : ¬((20001 : ℚ) / 1000 < 20)), e2,
      cell_gran_rnd_eq]
    rw [show ((648 : ℕ) : ℚ) * (20001 / 1000) / (100 - 20001 / 1000) / (2 * 8) =
        1620081 / 159998 by push_cast; norm_num]
    rw [fl_eq ((1620081 : ℚ) / 159998) 10 (by norm_num) (by norm_num)]
    norm_num
  have b7 : total_pixelsQ 648 480 (100000000 / 1664839) .Normal false false
      = 808 := by
    unfold total_pixelsQ
    rw [if_pos rfl, e2, b6]
    norm_num
  have b8 : act_pix_freq 648 480 (100000000 / 1664839) .Normal false false
      = 24 := by
    unfold act_pix_freq
    rw [if_pos rfl, b7, b4, show clock_step .Normal = 1 / 4 by
      norm_num [clock_step]]
    rw [show (808 : ℚ) / (3333 / 100) / (1 / 4) = 323200 / 3333 by norm_num]
    rw [fl_eq ((323200 : ℚ) / 3333) 96 (by norm_num) (by norm_num)]
    norm_num
  show pclock 648 480 (100000000 / 1664839) .Normal false false <
    pclock 648 480 (10000000 / 166661) .Normal false false
  unfold pclock
  rw [a8, b8]
  norm_num

/-- C7 (amended): in the Reduced and ReducedV2 blanking modes the pixel
clock is monotone non-decreasing in the requested refresh rate, for
positive refresh rates small enough that the estimated horizontal period
stays positive (in Normal mode the duty-cycle branch switch can make the
clock drop as the refresh rate grows, as the counterexample shows). -/
theorem c7_amended_reduced_clock_monotone (hp vp : ℕ) (r1 r2 : ℚ)
    (bm : BlankingMode) (m il : Bool) (hbm : bm ≠ .Normal) (hr1 : 0 < r1)
    (hr12 : r1 ≤ r2) (hpe2 : 0 < h_period_est hp vp r2 bm m il) :
    (CvtTimings.generate hp vp r1 bm m il).pixel_clock ≤
      (CvtTimings.generate hp vp r2 bm m il).pixel_clock := by
  have hvf1 : 0 < v_field_rate_rqd r1 il := by
    unfold v_field_rate_rqd
    split_ifs <;> linarith
  have hvf12 : v_field_rate_rqd r1 il ≤ v_field_rate_rqd r2 il := by
    unfold v_field_rate_rqd
    split_ifs <;> linarith
  have hvf2 : 0 < v_field_rate_rqd r2 il := lt_of_lt_of_le hvf1 hvf12
  set L := v_lines_rnd il vp + top_margin m il vp + top_margin m il vp with hL
  have hL0 : 0 ≤ L := by
    have := v_lines_rnd_nonneg il vp
    have := top_margin_nonneg m il vp
    simp only [hL]
    linarith
  have hpe2' : h_period_est hp vp r2 bm m il =
      ((1000000 / v_field_rate_rqd r2 il) - 460) / L := by
    unfold h_period_est
    rw [if_neg hbm]
  have hpe1' : h_period_est hp vp r1 bm m il =
      ((1000000 / v_field_rate_rqd r1 il) - 460) / L := by
    unfold h_period_est
    rw [if_neg hbm]
  have hLpos : 0 < L := by
    rcases lt_or_eq_of_le hL0 with h | h
    · exact h
    · exfalso
      rw [hpe2', ← h, div_zero] at hpe2
      exact lt_irrefl 0 hpe2
  have hnum2 : 0 < (1000000 / v_field_rate_rqd r2 il) - 460 := by
    by_contra hc
    push_neg at hc
    have : ((1000000 / v_field_rate_rqd r2 il) - 460) / L ≤ 0 :=
      div_nonpos_of_nonpos_of_nonneg hc (le_of_lt hLpos)
    rw [hpe2'] at hpe2
    linarith
  have hnum12 : (1000000 / v_field_rate_rqd r2 il) - 460 ≤
      (1000000 / v_field_rate_rqd r1 il) - 460 := by
    have := div_le_div_of_nonneg_left (by norm_num : (0 : ℚ) ≤ 1000000) hvf1 hvf12
    linarith
  have hpe21 : h_period_est hp vp r2 bm m il ≤ h_period_est hp vp r1 bm m il := by
    rw [hpe1', hpe2']
    exact div_le_div_of_nonneg_right hnum12 (le_of_lt hLpos)
  have hpe1 : 0 < h_period_est hp vp r1 bm m il := lt_of_lt_of_le hpe2 hpe21
  have hvbi12 : vbi_lines hp vp r1 bm m il ≤ vbi_lines hp vp r2 bm m il := by
    unfold vbi_lines
    have : 460 / h_period_est hp vp r1 bm m il ≤
        460 / h_period_est hp vp r2 bm m il :=
      div_le_div_of_nonneg_left (by norm_num) hpe2 hpe21
    linarith
  obtain ⟨nvs, hnvs, hnvs4, _⟩ := v_sync_rnd_cases bm il vp hp
  have hminvbi : 0 < rb_min_vbi bm il vp hp := by
    unfold rb_min_vbi
    rw [hnvs]
    have h1 : (0 : ℚ) ≤ (rb_v_fporch bm : ℚ) := by positivity
    have h2 : (4 : ℚ) ≤ (nvs : ℚ) := by exact_mod_cast hnvs4
    linarith
  have havbi12 : act_vbi_lines hp vp r1 bm m il ≤ act_vbi_lines hp vp r2 bm m il := by
    unfold act_vbi_lines
    split_ifs with h1 h2 <;> linarith
  have havbi1 : 0 < act_vbi_lines hp vp r1 bm m il := by
    unfold act_vbi_lines
    split_ifs with h1 <;> linarith
  have htv1' : total_v_linesQ hp vp r1 bm m il =
      act_vbi_lines hp vp r1 bm m il + L + interlaceQ il := by
    unfold total_v_linesQ
    rw [if_neg hbm, hL]
    ring
  have htv2' : total_v_linesQ hp vp r2 bm m il =
      act_vbi_lines hp vp r2 bm m il + L + interlaceQ il := by
    unfold total_v_linesQ
    rw [if_neg hbm, hL]
    ring
  have hil0 : 0 ≤ interlaceQ il := interlaceQ_nonneg il
  have htv1 : 0 ≤ total_v_linesQ hp vp r1 bm m il := by
    rw [htv1']
    linarith
  have htv12 : total_v_linesQ hp vp r1 bm m il ≤ total_v_linesQ hp vp r2 bm m il := by
    rw [htv1', htv2']
    linarith
  have htpeq : total_pixelsQ hp vp r1 bm m il = total_pixelsQ hp vp r2 bm m il := by
    unfold total_pixelsQ
    rw [if_neg hbm, if_neg hbm]
  have htp0 : 0 ≤ total_pixelsQ hp vp r2 bm m il := by
    unfold total_pixelsQ
    rw [if_neg hbm]
    positivity
  have hcs : 0 < clock_step bm := by
    cases bm <;> norm_num [clock_step]
  have hX : v_field_rate_rqd r1 il * total_v_linesQ hp vp r1 bm m il *
        total_pixelsQ hp vp r1 bm m il / 1000000 * refresh_multiplier bm ≤
      v_field_rate_rqd r2 il * total_v_linesQ hp vp r2 bm m il *
        total_pixelsQ hp vp r2 bm m il / 1000000 * refresh_multiplier bm := by
    rw [htpeq, show refresh_multiplier bm = 1 by cases bm <;> rfl]
    have h1 : v_field_rate_rqd r1 il * total_v_linesQ hp vp r1 bm m il ≤
        v_field_rate_rqd r2 il * total_v_linesQ hp vp r2 bm m il :=
      mul_le_mul hvf12 htv12 htv1 (le_of_lt hvf2)
    have h2 : v_field_rate_rqd r1 il * total_v_linesQ hp vp r1 bm m il *
        total_pixelsQ hp vp r2 bm m il ≤
        v_field_rate_rqd r2 il * total_v_linesQ hp vp r2 bm m il *
        total_pixelsQ hp vp r2 bm m il :=
      mul_le_mul_of_nonneg_right h1 htp0
    have h3 : v_field_rate_rqd r1 il * total_v_linesQ hp vp r1 bm m il *
        total_pixelsQ hp vp r2 bm m il / 1000000 ≤
        v_field_rate_rqd r2 il * total_v_linesQ hp vp r2 bm m il *
        total_pixelsQ hp vp r2 bm m il / 1000000 := by
      apply div_le_div_of_nonneg_right h2
      norm_num
    simpa using h3
  show pclock hp vp r1 bm m il ≤ pclock hp vp r2 bm m il
  unfold pclock act_pix_freq
  rw [if_neg hbm, if_neg hbm]
  have hfl : fl ((v_field_rate_rqd r1 il * total_v_linesQ hp vp r1 bm m il *
        total_pixelsQ hp vp r1 bm m il / 1000000 * refresh_multiplier bm) /
        clock_step bm) ≤
      fl ((v_field_rate_rqd r2 il * total_v_linesQ hp vp r2 bm m il *
        total_pixelsQ hp vp r2 bm m il / 1000000 * refresh_multiplier bm) /
        clock_step bm) :=
    fl_mono (div_le_div_of_nonneg_right hX (le_of_lt hcs))
  have := mul_le_mul_of_nonneg_left hfl (le_of_lt hcs)
  linarith

/-- C7 (witness): at 1280x1024 in ReducedV2 mode, refresh 60 vs 75 Hz
satisfies the amended hypotheses and the pixel clock does not
decrease. -/
theorem c7_witness :
    (0 : ℚ) < 60 ∧ (60 : ℚ) ≤ 75 ∧
      0 < h_period_est 1280 1024 75 .ReducedV2 false false ∧
      (CvtTimings.generate 1280 1024 60 .ReducedV2 false false).pixel_clock ≤
        (CvtTimings.generate 1280 1024 75 .ReducedV2 false false).pixel_clock := by
  have e3 : v_lines_rnd false 1024 = 1024 := by
    unfold v_lines_rnd
    norm_num
  have hpe : 0 < h_period_est 1280 1024 75 .ReducedV2 false false := by
    unfold h_period_est
    rw [if_neg rv2_ne_normal, e3]
    norm_num [v_field_rate_rqd, top_margin]
  exact ⟨by norm_num, by norm_num, hpe,
    c7_amended_reduced_clock_monotone 1280 1024 60 75 .ReducedV2 false false
      rv2_ne_normal (by norm_num) (by norm_num) hpe⟩

end Overdrive

